import Mathlib

/-!
Shallow embedding of the recovery sdcard-install orchestration
(`install/fuse_sdcard_install.cpp`) and proofs about it.

External collaborators — the menu widget, the volume manager, the
installer, the confirmation prompts, and the `mount`, `fork`, `waitpid`
and `stat` syscalls — are modelled as oracle inputs collected in an `Env`
record; the control flow of the translated functions follows the C++
source. Definitions come first, then the theorems.
-/

namespace FuseSdcard

/-- Lexicographic strict comparison on character lists, as C++
`std::string::operator<` compares bytes (for UTF-8 data, byte order and
codepoint order coincide). -/
def strLtB : List Char → List Char → Bool
  | [], [] => false
  | [], _ :: _ => true
  | _ :: _, [] => false
  | a :: as, b :: bs => if a < b then true else if b < a then false else strLtB as bs

/-- Strict `<` on strings, byte-lexicographic. -/
def strLt (a b : String) : Bool := strLtB a.data b.data

/-- Non-strict order induced by `strLt` (total since `strLtB` is trichotomous). -/
def strLe (a b : String) : Bool := !(strLt b a)

/-- Insert into a sorted list: `x` goes before the first element `y` with
`¬ y < x`. -/
def insertStr (x : String) : List String → List String
  | [] => [x]
  | y :: ys => if strLt y x then y :: insertStr x ys else x :: y :: ys

/-- Sort a list of strings into byte-lexicographic nondecreasing order
(the postcondition of `std::sort` with `operator<`; the sorted permutation
is unique because equal-ranked strings are equal). -/
def sortStr : List String → List String
  | [] => []
  | x :: xs => insertStr x (sortStr xs)

/-- Relation `strLe` holds between a list head and its successor candidate. -/
def headLeB (a : String) : List String → Bool
  | [] => true
  | b :: _ => strLe a b

/-- Nondecreasing (w.r.t. `strLe`) check. -/
def isSortedLe : List String → Bool
  | [] => true
  | a :: l => headLeB a l && isSortedLe l

/-- Bool-valued list prefix test. -/
def isPrefixB : List Char → List Char → Bool
  | [], _ => true
  | _ :: _, [] => false
  | a :: as, b :: bs => decide (a = b) && isPrefixB as bs

/-- Bool-valued list suffix test. -/
def isSuffixB (a b : List Char) : Bool := isPrefixB a.reverse b.reverse

/-- Test that `s` starts with `p` (C++ `compare`/manual prefix test; used to state that
browse results live under the browse root). -/
def strStartsWith (s p : String) : Bool := isPrefixB p.data s.data

/-- Model of `android::base::EndsWithIgnoreCase(s, suffix)`: ASCII-case-insensitive
suffix test (`strcasecmp` lowercases ASCII letters only, as `Char.toLower`). -/
def endsWithIgnoreCase (s suffix : String) : Bool :=
  isSuffixB (suffix.data.map Char.toLower) (s.data.map Char.toLower)

/-- Test of `s.back() == '/'` for the nonempty strings the browser builds. -/
def lastIsSlash (s : String) : Bool := decide (s.data.getLast? = some '/')

/-- Model of `std::string::pop_back()`: drop the last character. -/
def popBack (s : String) : String := String.mk s.data.dropLast

/-- A filesystem node as `readdir` classifies it: a directory (`DT_DIR`)
with its child entries in readdir order, a regular file (`DT_REG`), or any
other `d_type` (skipped by the browser). The model has no "." / ".."
self-links; the browser skips those names anyway. -/
inductive FS where
  | dir (entries : List (String × FS))
  | reg
  | other

/-- One value returned by `RecoveryUI::ShowMenu` as `BrowseDirectory`
consumes it: the `KeyError::INTERRUPTED` sentinel, `Device::kGoHome`,
`Device::kGoBack`, or a selected entry index. -/
inductive MenuResp where
  | interrupted
  | goHome
  | goBack
  | choose (i : Nat)
deriving DecidableEq

/-- The `readdir` loop of `BrowseDirectory`: first component collects
subdirectory names with `"/"` appended (skipping "." and ".."), second
collects regular-file names that end in ".zip" (ASCII-case-insensitively),
seeded with the synthetic `"../"` entry. -/
def scanStep (acc : List String × List String) (e : String × FS) :
    List String × List String :=
  match e.2 with
  | FS.dir _ => if e.1 = "." ∨ e.1 = ".." then acc else (acc.1 ++ [e.1 ++ "/"], acc.2)
  | FS.reg => if endsWithIgnoreCase e.1 ".zip" then (acc.1, acc.2 ++ [e.1]) else acc
  | FS.other => acc

/-- The whole readdir loop, folding `scanStep` over the entries with the
`(dirs, entries)` accumulators initialized to `([], ["../"])`. -/
def scanDir (es : List (String × FS)) : List String × List String :=
  es.foldl scanStep ([], ["../"])

/-- The package files of a directory listing (names of regular entries
ending in ".zip", case-insensitively), in readdir order. -/
def zipNames (es : List (String × FS)) : List String :=
  (es.filter (fun e =>
    match e.2 with
    | FS.reg => endsWithIgnoreCase e.1 ".zip"
    | _ => false)).map (fun e => e.1)

/-- The subdirectories of a directory listing other than "." and "..", with
`"/"` appended, in readdir order. -/
def dirNames (es : List (String × FS)) : List String :=
  (es.filter (fun e =>
    match e.2 with
    | FS.dir _ => !(decide (e.1 = "." ∨ e.1 = ".."))
    | _ => false)).map (fun e => e.1 ++ "/")

/-- The menu list `BrowseDirectory` presents: both accumulated lists are
sorted with `std::sort`, then the directory block is appended after the
file block (which contains the synthetic `"../"`). -/
def menuOf (es : List (String × FS)) : List String :=
  sortStr (scanDir es).2 ++ sortStr (scanDir es).1

/-- Model of `opendir` on the named child of a directory: succeeds only if an entry
with that name exists and is a directory. -/
def lookupDir (name : String) : List (String × FS) → Option (List (String × FS))
  | [] => none
  | e :: es =>
    if e.1 = name then
      match e.2 with
      | FS.dir es2 => some es2
      | _ => none
    else lookupDir name es

/-- Model of `BrowseDirectory`, shallowly embedded. The scripted `inputs` list
supplies successive `ShowMenu` return values (one per menu read; an
exhausted script reads as interrupted, and an out-of-range index — which
the menu widget never returns — as a cancel). `fuel` bounds the number of
menu reads; any `fuel > inputs.length` is exact because every read consumes
one input. Returns the C++ function's string result (`""` cancelled, `"@"`
go home, else the selected path) paired with the unconsumed script. The
persistent `chosen_item` only seeds the next menu's cursor, which the
scripted oracle subsumes. -/
def BrowseDirectory (fuel : Nat) (path : String) (fs : FS) (inputs : List MenuResp) :
    String × List MenuResp :=
  match fuel with
  | 0 => ("", inputs)
  | fuel + 1 =>
    match fs with
    | FS.reg => ("", inputs)
    | FS.other => ("", inputs)
    | FS.dir es =>
      match inputs with
      | [] => ("", [])
      | resp :: rest =>
        match resp with
        | MenuResp.interrupted => ("", rest)
        | MenuResp.goHome => ("@", rest)
        | MenuResp.goBack => ("", rest)
        | MenuResp.choose i =>
          if i = 0 then ("", rest)
          else
            match (menuOf es)[i]? with
            | none => ("", rest)
            | some item =>
              if lastIsSlash (path ++ "/" ++ item) then
                let name := popBack item
                let stepped :=
                  match lookupDir name es with
                  | none => ("", rest)
                  | some es2 => BrowseDirectory fuel (path ++ "/" ++ name) (FS.dir es2) rest
                if stepped.1 ≠ "" then stepped
                else BrowseDirectory fuel path (FS.dir es) stepped.2
              else (path ++ "/" ++ item, rest)

/-- The `INSTALL_*` result codes this file consumes or produces. -/
inductive Install where
  | INSTALL_SUCCESS
  | INSTALL_ERROR
  | INSTALL_NONE
  | INSTALL_UNVERIFIED
  | INSTALL_DOWNGRADE
  | INSTALL_CORRUPT
deriving DecidableEq

/-- The arguments of one `install_package` call as they appear at the three
call sites (path, second and third positional Bool arguments, retry_count,
verify, allow_ab_downgrade); the trailing `ui` pointer carries no data. -/
structure InstallArgs where
  package : String
  arg2 : Bool
  arg3 : Bool
  retry_count : Nat
  verify : Bool
  allow_ab_downgrade : Bool
deriving DecidableEq

/-- An fstab volume as `do_sdcard_mount_for_ufs` reads it. -/
structure Volume where
  mount_point : String
  fs_type : String
  flags : Nat
  fs_options : String

/-- Constant `SDCARD_INSTALL_TIMEOUT`: bound (in one-second poll iterations) on the
wait for the fuse-provided package file. -/
def SDCARD_INSTALL_TIMEOUT : Nat := 10

/-- Constant `FUSE_SIDELOAD_HOST_PATHNAME` (external constant from fuse_sideload.h):
the ready-signal path the fuse host creates. -/
def FUSE_SIDELOAD_HOST_PATHNAME : String := "/sideload/package.zip"

/-- Constant `UFS_DEV_SDCARD_BLK_PATH`: the fixed raw block device mounted on UFS
devices. -/
def UFS_DEV_SDCARD_BLK_PATH : String := "/dev/block/mmcblk0p1"

/-- Everything the orchestrator observes from its collaborators and the
kernel, as oracles: the boot-device property, the fstab lookup, the two
mount primitives, the directory tree and scripted menu input, fork success,
and per-poll-iteration `waitpid`/`stat` outcomes, plus the installer's
outcome for its k-th invocation and the two confirmation prompts. -/
structure Env where
  bootdevice : String
  sdcardVolume : Option Volume
  ufsMountRc : Int
  volumeMountOk : Bool
  mPath : String
  fs : FS
  menuInputs : List MenuResp
  forkOk : Bool
  waitpidNohang : Nat → Int
  statHostOk : Nat → Bool
  statErrnoENOENT : Nat → Bool
  install : Nat → Install
  askUnverified : Bool
  askDowngrade : Bool

/-- Model of `is_ufs_dev`: nonzero iff the `ro.boot.bootdevice` property value is at
least `strlen(".ufshc") + 1` characters long and its last six characters
are ".ufshc" (`strncmp` with `sizeof(".ufshc")` compares through the NUL). -/
def is_ufs_dev (bootdevice : String) : Bool :=
  if bootdevice.length < ".ufshc".length + 1 then false
  else isSuffixB ".ufshc".data bootdevice.data

/-- Result of `do_sdcard_mount_for_ufs` plus whether the `mount` syscall was
reached. -/
structure UfsMountOut where
  rc : Int
  mountAttempted : Bool

/-- Model of `do_sdcard_mount_for_ufs`: look up the /sdcard volume in the fstab;
require `fs_type` to equal "vfat" exactly (`strncmp` with `sizeof("vfat")`
compares the full string including the NUL); only then attempt the raw
block-device mount. Returns 0 on success, -1 on any failure. -/
def do_sdcard_mount_for_ufs (env : Env) : UfsMountOut :=
  match env.sdcardVolume with
  | none => UfsMountOut.mk (-1) false
  | some v =>
    if v.fs_type ≠ "vfat" then UfsMountOut.mk (-1) false
    else if env.ufsMountRc ≠ 0 then UfsMountOut.mk (-1) true
    else UfsMountOut.mk 0 true

/-- The installer-invocation block run once the host path stats: first call
with verification on and downgrade off; if it reports `INSTALL_UNVERIFIED`
and the user confirms, call again with verification off; if the (possibly
updated) result is `INSTALL_DOWNGRADE` and the user confirms, call again
with downgrade allowed. `env.install k` is the outcome of the k-th call;
returns the final result and the list of calls made. -/
def installAttempt (env : Env) : Install × List InstallArgs :=
  let r1 := env.install 0
  let calls1 : List InstallArgs :=
    [InstallArgs.mk FUSE_SIDELOAD_HOST_PATHNAME false true 0 true false]
  let s2 :=
    if r1 = Install.INSTALL_UNVERIFIED ∧ env.askUnverified then
      (env.install calls1.length,
       calls1 ++ [InstallArgs.mk FUSE_SIDELOAD_HOST_PATHNAME false false 0 false false])
    else (r1, calls1)
  let s3 :=
    if s2.1 = Install.INSTALL_DOWNGRADE ∧ env.askDowngrade then
      (env.install s2.2.length,
       s2.2 ++ [InstallArgs.mk FUSE_SIDELOAD_HOST_PATHNAME false false 0 false true])
    else s2
  s3

/-- Observable outcome of the readiness polling loop: the `result` local,
the `waited` flag, how many non-blocking `waitpid` and host-path `stat`
calls ran, whether `SIGKILL` was sent, and the install calls made. -/
structure PollOut where
  result : Install
  waited : Bool
  waitpidCalls : Nat
  statHostCalls : Nat
  killed : Bool
  installCalls : List InstallArgs
deriving DecidableEq

/-- The `for (i = 0; i < SDCARD_INSTALL_TIMEOUT; ++i)` readiness loop,
starting at iteration `i` with `fuel` iterations left: a non-blocking
`waitpid` returning -1 breaks with `INSTALL_ERROR` and `waited = true`;
else a successful `stat` of the host path runs the install block and
breaks; else `errno == ENOENT` with iterations remaining sleeps and
continues; otherwise (timeout, or a non-ENOENT stat failure) the child is
killed and the loop breaks with `INSTALL_ERROR`. Natural exhaustion leaves
the initial `INSTALL_ERROR`. -/
def pollLoop (env : Env) (fuel i : Nat) : PollOut :=
  match fuel with
  | 0 => PollOut.mk Install.INSTALL_ERROR false 0 0 false []
  | fuel + 1 =>
    if env.waitpidNohang i = -1 then
      PollOut.mk Install.INSTALL_ERROR true 1 0 false []
    else if env.statHostOk i then
      let a := installAttempt env
      PollOut.mk a.1 false 1 1 false a.2
    else if env.statErrnoENOENT i ∧ i < SDCARD_INSTALL_TIMEOUT - 1 then
      let rest := pollLoop env fuel (i + 1)
      PollOut.mk rest.result rest.waited (rest.waitpidCalls + 1) (rest.statHostCalls + 1)
        rest.killed rest.installCalls
    else
      PollOut.mk Install.INSTALL_ERROR false 1 1 true []

/-- The browse result `ApplyFromStorage` consumes:
`BrowseDirectory(vi.mPath, device, ui)` under the scripted menu input, with
exact fuel. -/
def browsedPath (env : Env) : String :=
  (BrowseDirectory (env.menuInputs.length + 1) env.mPath env.fs env.menuInputs).1

/-- Whether the mount step of `ApplyFromStorage` succeeds (UFS raw-mount
path or the volume manager). -/
def mountOk (env : Env) : Bool :=
  if is_ufs_dev env.bootdevice then decide ((do_sdcard_mount_for_ufs env).rc = 0)
  else env.volumeMountOk

/-- Observable outcome of one `ApplyFromStorage` run: its `INSTALL_*`
return value plus the side-effect trace the claims talk about. -/
structure ApplyOut where
  result : Install
  volumeMountCalls : Nat
  rawMountAttempted : Bool
  unmountCalls : Nat
  forkCalled : Bool
  forkReturnedNeg : Bool
  waitpidCalls : Nat
  statHostCalls : Nat
  killed : Bool
  exitSignaled : Bool
  blockingWaitCalls : Nat
  installCalls : List InstallArgs
deriving DecidableEq

/-- Model of `ApplyFromStorage` after a successful mount (`vmCalls` volume-manager
mount calls made, `raw` whether the raw mount syscall ran): browse; on "@"
return `INSTALL_NONE` without unmounting; on an empty selection unmount and
return `INSTALL_NONE`; otherwise write the BCB message, fork the fuse host
(the fork return value is never checked), run the polling loop, signal the
host to exit and reap it with a blocking `waitpid` unless `waited` was set,
unmount, and return the loop's result. -/
def ApplyFromStorageMounted (env : Env) (vmCalls : Nat) (raw : Bool) : ApplyOut :=
  let path := browsedPath env
  if path = "@" then
    ApplyOut.mk Install.INSTALL_NONE vmCalls raw 0 false false 0 0 false false 0 []
  else if path = "" then
    ApplyOut.mk Install.INSTALL_NONE vmCalls raw 1 false false 0 0 false false 0 []
  else
    let p := pollLoop env SDCARD_INSTALL_TIMEOUT 0
    ApplyOut.mk p.result vmCalls raw 1 true (!env.forkOk) p.waitpidCalls p.statHostCalls
      p.killed (!p.waited) (if p.waited then 0 else 1) p.installCalls

/-- Model of `ApplyFromStorage`: on a UFS boot device do the raw sdcard mount (on
failure return `INSTALL_ERROR` with nothing mounted or unmounted);
otherwise mount through the volume manager (on failure return
`INSTALL_ERROR`); then proceed with browse / fork / poll / teardown. -/
def ApplyFromStorage (env : Env) : ApplyOut :=
  if is_ufs_dev env.bootdevice then
    let m := do_sdcard_mount_for_ufs env
    if m.rc ≠ 0 then
      ApplyOut.mk Install.INSTALL_ERROR 0 m.mountAttempted 0 false false 0 0 false false 0 []
    else ApplyFromStorageMounted env 0 m.mountAttempted
  else
    if env.volumeMountOk = false then
      ApplyOut.mk Install.INSTALL_ERROR 1 false 0 false false 0 0 false false 0 []
    else ApplyFromStorageMounted env 1 false

/-- A small directory listing: one package file and one subdirectory holding
another package file. -/
def zipEntries : List (String × FS) := [("a.zip", FS.reg), ("sub", FS.dir [("b.zip", FS.reg)])]

/-- The tree rooted at `zipEntries`. -/
def zipTree : FS := FS.dir zipEntries

/-- A listing exercising all classification cases: two package files (out
of order), a subdirectory, a non-package regular file, and the "." entry
that readdir reports but the browser skips. -/
def demoEntries : List (String × FS) :=
  [("b.zip", FS.reg), ("a.zip", FS.reg), ("sub", FS.dir []), ("notes.txt", FS.reg),
   (".", FS.dir [])]

/-- Non-UFS device, mount succeeds, user immediately selects "a.zip", the
host path stats on the first poll iteration, installer reports
`INSTALL_UNVERIFIED` then `INSTALL_DOWNGRADE` then `INSTALL_SUCCESS`, both
confirmations approve. -/
def envUnvDowngrade : Env :=
  Env.mk "N/A" none 0 true "/sdcard" zipTree [MenuResp.choose 1] true
    (fun _ => 0) (fun _ => true) (fun _ => false)
    (fun k =>
      match k with
      | 0 => Install.INSTALL_UNVERIFIED
      | 1 => Install.INSTALL_DOWNGRADE
      | _ => Install.INSTALL_SUCCESS)
    true true

/-- Non-UFS device whose volume-manager mount fails. -/
def envMountFail : Env :=
  Env.mk "N/A" none 0 false "/sdcard" zipTree [MenuResp.choose 1] true
    (fun _ => 0) (fun _ => true) (fun _ => false) (fun _ => Install.INSTALL_SUCCESS)
    false false

/-- Fork fails (`fork()` returns -1, which the code never checks); the first
non-blocking `waitpid` then fails with -1 (ECHILD). -/
def envForkFail : Env :=
  Env.mk "N/A" none 0 true "/sdcard" zipTree [MenuResp.choose 1] false
    (fun _ => -1) (fun _ => false) (fun _ => true) (fun _ => Install.INSTALL_SUCCESS)
    false false

/-- The host path never appears: every stat fails with ENOENT. -/
def envTimeout : Env :=
  Env.mk "N/A" none 0 true "/sdcard" zipTree [MenuResp.choose 1] true
    (fun _ => 0) (fun _ => false) (fun _ => true) (fun _ => Install.INSTALL_SUCCESS)
    false false

/-- UFS boot device with an ext4-formatted sdcard volume. -/
def envUfsExt4 : Env :=
  Env.mk "1d84000.ufshc" (some (Volume.mk "/sdcard" "ext4" 0 "")) 0 true "/sdcard" zipTree
    [MenuResp.choose 1] true (fun _ => 0) (fun _ => true) (fun _ => false)
    (fun _ => Install.INSTALL_SUCCESS) false false

/-- The home-navigation script: the user picks "go home" at the first menu. -/
def envGoHome : Env :=
  Env.mk "N/A" none 0 true "/sdcard" zipTree [MenuResp.goHome] true
    (fun _ => 0) (fun _ => true) (fun _ => false) (fun _ => Install.INSTALL_SUCCESS)
    false false

/-- Child exits before the host path appears: `waitpid` reports -1 on the
first poll iteration. -/
def envChildDead : Env :=
  Env.mk "N/A" none 0 true "/sdcard" zipTree [MenuResp.choose 1] true
    (fun _ => -1) (fun _ => false) (fun _ => true) (fun _ => Install.INSTALL_SUCCESS)
    false false

/-- Ready on the first poll iteration, installer succeeds at once. -/
def envReady : Env :=
  Env.mk "N/A" none 0 true "/sdcard" zipTree [MenuResp.choose 1] true
    (fun _ => 0) (fun _ => true) (fun _ => false) (fun _ => Install.INSTALL_SUCCESS)
    false false

/-! ## Theorems -/

theorem strLtB_asymm : ∀ a b : List Char, strLtB a b = true → strLtB b a = false := by
  intro a
  induction a with
  | nil => intro b _; cases b <;> simp [strLtB]
  | cons x xs ih =>
    intro b h
    cases b with
    | nil => simp [strLtB] at h
    | cons y ys =>
      simp only [strLtB] at h ⊢
      by_cases hxy : x < y
      · have : ¬ y < x := fun hyx => absurd (lt_trans hxy hyx) (lt_irrefl x)
        simp [hxy, this]
      · by_cases hyx : y < x
        · simp [hxy, hyx] at h
        · simp [hxy, hyx] at h ⊢
          exact ih ys h

theorem insertStr_perm (x : String) : ∀ l : List String, (insertStr x l).Perm (x :: l) := by
  intro l
  induction l with
  | nil => simp [insertStr]
  | cons y ys ih =>
    simp only [insertStr]
    by_cases h : strLt y x = true
    · simp only [h, if_true]
      exact (ih.cons y).trans (List.Perm.swap x y ys)
    · simp [h]

theorem sortStr_perm : ∀ l : List String, (sortStr l).Perm l := by
  intro l
  induction l with
  | nil => simp [sortStr]
  | cons x xs ih => exact (insertStr_perm x (sortStr xs)).trans (ih.cons x)

theorem mem_sortStr {x : String} {l : List String} : x ∈ sortStr l ↔ x ∈ l :=
  (sortStr_perm l).mem_iff

theorem insertStr_headOpt (x : String) (l : List String) :
    (insertStr x l).head? = some x ∨ (insertStr x l).head? = l.head? := by
  cases l with
  | nil => left; rfl
  | cons y ys =>
    simp only [insertStr]
    by_cases h : strLt y x = true
    · right; simp [h]
    · left; simp [h]

theorem insertStr_sorted (x : String) :
    ∀ l : List String, isSortedLe l = true → isSortedLe (insertStr x l) = true := by
  intro l
  induction l with
  | nil => intro _; rfl
  | cons y ys ih =>
    intro hs
    simp only [isSortedLe, Bool.and_eq_true] at hs
    simp only [insertStr]
    by_cases h : strLt y x = true
    · simp only [h, if_true, isSortedLe, Bool.and_eq_true]
      refine ⟨?_, ih hs.2⟩
      rcases insertStr_headOpt x ys with hh | hh
      · cases hins : insertStr x ys with
        | nil => rfl
        | cons z zs =>
          rw [hins] at hh
          simp only [List.head?, Option.some.injEq] at hh
          subst hh
          simp only [headLeB, strLe, strLt]
          rw [strLtB_asymm _ _ h]
          rfl
      · cases hins : insertStr x ys with
        | nil => rfl
        | cons z zs =>
          rw [hins] at hh
          cases ys with
          | nil => simp at hh
          | cons w ws =>
            simp only [List.head?, Option.some.injEq] at hh
            subst hh
            simpa [headLeB] using hs.1
    · have hf : strLt y x = false := by
        cases hv : strLt y x with
        | false => rfl
        | true => exact absurd hv h
      rw [if_neg h]
      simp only [isSortedLe, headLeB, strLe, hf, Bool.not_false, Bool.true_and,
        Bool.and_eq_true]
      exact ⟨hs.1, hs.2⟩

theorem sortStr_sorted : ∀ l : List String, isSortedLe (sortStr l) = true := by
  intro l
  induction l with
  | nil => rfl
  | cons x xs ih => exact insertStr_sorted x (sortStr xs) ih

theorem isPrefixB_iff : ∀ a b : List Char, isPrefixB a b = true ↔ ∃ t, b = a ++ t := by
  intro a
  induction a with
  | nil => intro b; simp [isPrefixB]
  | cons x xs ih =>
    intro b
    cases b with
    | nil => simp [isPrefixB]
    | cons y ys =>
      simp only [isPrefixB, Bool.and_eq_true, decide_eq_true_eq, ih ys]
      constructor
      · rintro ⟨rfl, t, rfl⟩; exact ⟨t, rfl⟩
      · rintro ⟨t, ht⟩
        injection ht with h1 h2
        exact ⟨h1.symm, t, h2⟩

theorem isSuffixB_iff (a b : List Char) : isSuffixB a b = true ↔ ∃ t, b = t ++ a := by
  simp only [isSuffixB, isPrefixB_iff]
  constructor
  · rintro ⟨t, ht⟩
    refine ⟨t.reverse, ?_⟩
    have := congrArg List.reverse ht
    simpa [List.reverse_append] using this
  · rintro ⟨t, rfl⟩
    exact ⟨t.reverse, by simp [List.reverse_append]⟩

theorem data_append (a b : String) : (a ++ b).data = a.data ++ b.data := by
  cases a
  cases b
  rfl

theorem popBack_append_slash (a : String) : popBack (a ++ "/") = a := by
  cases a with
  | mk d =>
    show String.mk (List.dropLast (d ++ ['/'])) = String.mk d
    rw [List.dropLast_concat]

theorem append_slash_inj {a b : String} (h : a ++ "/" = b ++ "/") : a = b := by
  have := congrArg popBack h
  rwa [popBack_append_slash, popBack_append_slash] at this

theorem strExt {s t : String} (h : s.data = t.data) : s = t := by
  cases s
  cases t
  cases h
  rfl

theorem strAppend_assoc (a b c : String) : (a ++ b) ++ c = a ++ (b ++ c) := by
  apply strExt
  rw [data_append, data_append, data_append, data_append, List.append_assoc]

theorem strStartsWith_append (a b : String) : strStartsWith (a ++ b) a = true := by
  unfold strStartsWith
  rw [isPrefixB_iff]
  exact ⟨b.data, (data_append a b).symm ▸ rfl⟩

theorem strStartsWith_of_append {r : String} (a b : String)
    (h : strStartsWith r (a ++ b) = true) : strStartsWith r a = true := by
  unfold strStartsWith at h ⊢
  rw [isPrefixB_iff] at h ⊢
  rcases h with ⟨t, ht⟩
  rw [data_append, List.append_assoc] at ht
  exact ⟨b.data ++ t, ht⟩

theorem endsWithIgnoreCase_append_left (a b s : String)
    (h : endsWithIgnoreCase b s = true) : endsWithIgnoreCase (a ++ b) s = true := by
  unfold endsWithIgnoreCase at h ⊢
  rw [isSuffixB_iff] at h ⊢
  rcases h with ⟨t, ht⟩
  refine ⟨a.data.map Char.toLower ++ t, ?_⟩
  rw [data_append, List.map_append, ht, List.append_assoc]

theorem lastIsSlash_append_slash (p n : String) :
    lastIsSlash (p ++ (n ++ "/")) = true := by
  unfold lastIsSlash
  rw [decide_eq_true_eq, data_append, data_append]
  show (p.data ++ (n.data ++ ['/'])).getLast? = some '/'
  rw [← List.append_assoc, List.getLast?_concat]

theorem foldl_scanStep (es : List (String × FS)) :
    ∀ d e : List String, es.foldl scanStep (d, e) = (d ++ dirNames es, e ++ zipNames es) := by
  induction es with
  | nil => intro d e; simp [dirNames, zipNames]
  | cons x xs ih =>
    intro d e
    cases hx : x.2 with
    | dir es2 =>
      by_cases hdot : x.1 = "." ∨ x.1 = ".."
      · have hstep : scanStep (d, e) x = (d, e) := by simp [scanStep, hx, hdot]
        have h1 : dirNames (x :: xs) = dirNames xs := by
          simp only [dirNames, List.filter_cons, hx]
          rcases hdot with h | h <;> simp [h]
        have h2 : zipNames (x :: xs) = zipNames xs := by
          simp [zipNames, List.filter_cons, hx]
        simp only [List.foldl_cons, hstep, h1, h2, ih]
      · have hstep : scanStep (d, e) x = (d ++ [x.1 ++ "/"], e) := by
          simp [scanStep, hx, hdot]
        have h1 : dirNames (x :: xs) = (x.1 ++ "/") :: dirNames xs := by
          push_neg at hdot
          simp [dirNames, List.filter_cons, hx, hdot.1, hdot.2]
        have h2 : zipNames (x :: xs) = zipNames xs := by
          simp [zipNames, List.filter_cons, hx]
        simp only [List.foldl_cons, hstep, h1, h2, ih, List.append_assoc,
          List.singleton_append]
    | reg =>
      by_cases hzip : endsWithIgnoreCase x.1 ".zip" = true
      · have hstep : scanStep (d, e) x = (d, e ++ [x.1]) := by simp [scanStep, hx, hzip]
        have h1 : dirNames (x :: xs) = dirNames xs := by
          simp [dirNames, List.filter_cons, hx]
        have h2 : zipNames (x :: xs) = x.1 :: zipNames xs := by
          simp [zipNames, List.filter_cons, hx, hzip]
        simp only [List.foldl_cons, hstep, h1, h2, ih, List.append_assoc,
          List.singleton_append]
      · have hstep : scanStep (d, e) x = (d, e) := by simp [scanStep, hx, hzip]
        have h1 : dirNames (x :: xs) = dirNames xs := by
          simp [dirNames, List.filter_cons, hx]
        have h2 : zipNames (x :: xs) = zipNames xs := by
          simp [zipNames, List.filter_cons, hx, hzip]
        simp only [List.foldl_cons, hstep, h1, h2, ih]
    | other =>
      have hstep : scanStep (d, e) x = (d, e) := by simp [scanStep, hx]
      have h1 : dirNames (x :: xs) = dirNames xs := by
        simp [dirNames, List.filter_cons, hx]
      have h2 : zipNames (x :: xs) = zipNames xs := by
        simp [zipNames, List.filter_cons, hx]
      simp only [List.foldl_cons, hstep, h1, h2, ih]

theorem scanDir_eq (es : List (String × FS)) :
    scanDir es = (dirNames es, "../" :: zipNames es) := by
  unfold scanDir
  rw [foldl_scanStep]
  simp

theorem menuOf_eq (es : List (String × FS)) :
    menuOf es = sortStr ("../" :: zipNames es) ++ sortStr (dirNames es) := by
  unfold menuOf
  rw [scanDir_eq]

theorem mem_zipNames {x : String} {es : List (String × FS)} (h : x ∈ zipNames es) :
    endsWithIgnoreCase x ".zip" = true ∧ ∃ e ∈ es, x = e.1 := by
  unfold zipNames at h
  rcases List.mem_map.mp h with ⟨e, he, rfl⟩
  rcases List.mem_filter.mp he with ⟨hmem, hp⟩
  refine ⟨?_, e, hmem, rfl⟩
  cases h2 : e.2 with
  | dir es2 => rw [h2] at hp; simp at hp
  | reg => rw [h2] at hp; exact hp
  | other => rw [h2] at hp; simp at hp

theorem mem_dirNames {x : String} {es : List (String × FS)} (h : x ∈ dirNames es) :
    ∃ n, x = n ++ "/" ∧ n ≠ "." ∧ n ≠ ".." := by
  unfold dirNames at h
  rcases List.mem_map.mp h with ⟨e, he, rfl⟩
  rcases List.mem_filter.mp he with ⟨_, hp⟩
  refine ⟨e.1, rfl, ?_⟩
  cases h2 : e.2 with
  | dir es2 =>
    rw [h2] at hp
    simp only [Bool.not_eq_true'] at hp
    have := of_decide_eq_false hp
    push_neg at this
    exact this
  | reg => rw [h2] at hp; simp at hp
  | other => rw [h2] at hp; simp at hp

theorem mem_menuOf_shape {item : String} {es : List (String × FS)} (h : item ∈ menuOf es) :
    item = "../" ∨ endsWithIgnoreCase item ".zip" = true ∨ ∃ n, item = n ++ "/" := by
  rw [menuOf_eq] at h
  rcases List.mem_append.mp h with h | h
  · rw [mem_sortStr] at h
    rcases List.mem_cons.mp h with h | h
    · exact Or.inl h
    · exact Or.inr (Or.inl (mem_zipNames h).1)
  · rw [mem_sortStr] at h
    rcases mem_dirNames h with ⟨n, hn, _⟩
    exact Or.inr (Or.inr ⟨n, hn⟩)

theorem goUp_notMem_zipNames {es : List (String × FS)}
    (h : ∀ e ∈ es, ('/' : Char) ∉ e.1.data) : "../" ∉ zipNames es := by
  intro hm
  rcases (mem_zipNames hm).2 with ⟨e, he, heq⟩
  have := h e he
  rw [← heq] at this
  exact this (by decide)

theorem goUp_notMem_dirNames {es : List (String × FS)} : "../" ∉ dirNames es := by
  intro hm
  rcases mem_dirNames hm with ⟨n, hn, _, hne⟩
  have : (".." : String) ++ "/" = "../" := by decide
  rw [← this] at hn
  exact hne (append_slash_inj hn.symm)

theorem count_goUp_menuOf {es : List (String × FS)}
    (h : ∀ e ∈ es, ('/' : Char) ∉ e.1.data) : (menuOf es).count "../" = 1 := by
  rw [menuOf_eq, List.count_append,
    ((sortStr_perm ("../" :: zipNames es)).count_eq "../"),
    ((sortStr_perm (dirNames es)).count_eq "../")]
  rw [List.count_cons_self, List.count_eq_zero.mpr (goUp_notMem_zipNames h),
    List.count_eq_zero.mpr goUp_notMem_dirNames]

theorem pollLoop_waitBreak (env : Env) :
    ∀ (k i fuel : Nat), k < fuel → i + k < SDCARD_INSTALL_TIMEOUT →
      (∀ j, j < k → env.waitpidNohang (i + j) ≠ -1 ∧ env.statHostOk (i + j) = false ∧
        env.statErrnoENOENT (i + j) = true) →
      env.waitpidNohang (i + k) = -1 →
      pollLoop env fuel i = PollOut.mk Install.INSTALL_ERROR true (k + 1) k false [] := by
  intro k
  induction k with
  | zero =>
    intro i fuel hkf _ _ hw
    cases fuel with
    | zero => omega
    | succ f =>
      rw [Nat.add_zero] at hw
      simp only [pollLoop]
      rw [if_pos hw]
  | succ k ih =>
    intro i fuel hkf hib hcont hw
    cases fuel with
    | zero => omega
    | succ f =>
      have h0 := hcont 0 (Nat.succ_pos k)
      rw [Nat.add_zero] at h0
      have hguard : (env.statErrnoENOENT i = true) ∧ i < SDCARD_INSTALL_TIMEOUT - 1 := by
        refine ⟨h0.2.2, ?_⟩
        simp only [SDCARD_INSTALL_TIMEOUT] at hib ⊢
        omega
      have hrec : pollLoop env f (i + 1) =
          PollOut.mk Install.INSTALL_ERROR true (k + 1) k false [] := by
        refine ih (i + 1) f (by omega) (by omega) ?_ ?_
        · intro j hj
          have := hcont (j + 1) (by omega)
          rwa [show i + (j + 1) = i + 1 + j by omega] at this
        · rwa [show i + 1 + k = i + (k + 1) by omega]
      simp only [pollLoop]
      rw [if_neg h0.1, if_neg (by simp [h0.2.1]), if_pos hguard, hrec]

theorem pollLoop_readyBreak (env : Env) :
    ∀ (k i fuel : Nat), k < fuel → i + k < SDCARD_INSTALL_TIMEOUT →
      (∀ j, j < k → env.waitpidNohang (i + j) ≠ -1 ∧ env.statHostOk (i + j) = false ∧
        env.statErrnoENOENT (i + j) = true) →
      env.waitpidNohang (i + k) ≠ -1 → env.statHostOk (i + k) = true →
      pollLoop env fuel i =
        PollOut.mk (installAttempt env).1 false (k + 1) (k + 1) false
          (installAttempt env).2 := by
  intro k
  induction k with
  | zero =>
    intro i fuel hkf _ _ hw hs
    cases fuel with
    | zero => omega
    | succ f =>
      rw [Nat.add_zero] at hw hs
      simp only [pollLoop]
      rw [if_neg hw, if_pos hs]
  | succ k ih =>
    intro i fuel hkf hib hcont hw hs
    cases fuel with
    | zero => omega
    | succ f =>
      have h0 := hcont 0 (Nat.succ_pos k)
      rw [Nat.add_zero] at h0
      have hguard : (env.statErrnoENOENT i = true) ∧ i < SDCARD_INSTALL_TIMEOUT - 1 := by
        refine ⟨h0.2.2, ?_⟩
        simp only [SDCARD_INSTALL_TIMEOUT] at hib ⊢
        omega
      have hrec : pollLoop env f (i + 1) =
          PollOut.mk (installAttempt env).1 false (k + 1) (k + 1) false
            (installAttempt env).2 := by
        refine ih (i + 1) f (by omega) (by omega) ?_ ?_ ?_
        · intro j hj
          have := hcont (j + 1) (by omega)
          rwa [show i + (j + 1) = i + 1 + j by omega] at this
        · rwa [show i + 1 + k = i + (k + 1) by omega]
        · rwa [show i + 1 + k = i + (k + 1) by omega]
      simp only [pollLoop]
      rw [if_neg h0.1, if_neg (by simp [h0.2.1]), if_pos hguard, hrec]

theorem pollLoop_timeout (env : Env) :
    ∀ (fuel i : Nat), i + fuel = SDCARD_INSTALL_TIMEOUT → 0 < fuel →
      (∀ j, j < fuel → env.waitpidNohang (i + j) ≠ -1 ∧ env.statHostOk (i + j) = false ∧
        env.statErrnoENOENT (i + j) = true) →
      pollLoop env fuel i = PollOut.mk Install.INSTALL_ERROR false fuel fuel true [] := by
  intro fuel
  induction fuel with
  | zero => omega
  | succ f ih =>
    intro i hif _ hcont
    have h0 := hcont 0 (Nat.succ_pos f)
    rw [Nat.add_zero] at h0
    cases f with
    | zero =>
      have hi : i = SDCARD_INSTALL_TIMEOUT - 1 := by
        simp only [SDCARD_INSTALL_TIMEOUT] at hif ⊢
        omega
      simp only [pollLoop]
      rw [if_neg h0.1, if_neg (by simp [h0.2.1]),
        if_neg (by rintro ⟨_, hlt⟩; omega)]
    | succ f2 =>
      have hguard : (env.statErrnoENOENT i = true) ∧ i < SDCARD_INSTALL_TIMEOUT - 1 := by
        refine ⟨h0.2.2, ?_⟩
        simp only [SDCARD_INSTALL_TIMEOUT] at hif ⊢
        omega
      have hrec : pollLoop env (f2 + 1) (i + 1) =
          PollOut.mk Install.INSTALL_ERROR false (f2 + 1) (f2 + 1) true [] := by
        refine ih (i + 1) (by omega) (by omega) ?_
        intro j hj
        have := hcont (j + 1) (by omega)
        rwa [show i + (j + 1) = i + 1 + j by omega] at this
      generalize hg : f2 + 1 = g at hrec ⊢
      simp only [pollLoop]
      rw [if_neg h0.1, if_neg (by simp [h0.2.1]), if_pos hguard, hrec]

theorem ufsMount_attempted_of_rc_zero (env : Env)
    (h : (do_sdcard_mount_for_ufs env).rc = 0) :
    (do_sdcard_mount_for_ufs env).mountAttempted = true := by
  unfold do_sdcard_mount_for_ufs at h ⊢
  cases hv : env.sdcardVolume with
  | none =>
    rw [hv] at h
    simp at h
  | some v =>
    rw [hv] at h
    by_cases hft : v.fs_type = "vfat"
    · by_cases hrc : env.ufsMountRc = 0
      · simp [hft, hrc]
      · simp [hft, hrc] at h
    · simp [hft] at h

theorem ApplyFromStorage_poll (env : Env) (hM : mountOk env = true)
    (h1 : browsedPath env ≠ "@") (h2 : browsedPath env ≠ "") :
    ApplyFromStorage env =
      ApplyOut.mk (pollLoop env SDCARD_INSTALL_TIMEOUT 0).result
        (if is_ufs_dev env.bootdevice then 0 else 1)
        (is_ufs_dev env.bootdevice)
        1 true (!env.forkOk)
        (pollLoop env SDCARD_INSTALL_TIMEOUT 0).waitpidCalls
        (pollLoop env SDCARD_INSTALL_TIMEOUT 0).statHostCalls
        (pollLoop env SDCARD_INSTALL_TIMEOUT 0).killed
        (!(pollLoop env SDCARD_INSTALL_TIMEOUT 0).waited)
        (if (pollLoop env SDCARD_INSTALL_TIMEOUT 0).waited then 0 else 1)
        (pollLoop env SDCARD_INSTALL_TIMEOUT 0).installCalls := by
  unfold ApplyFromStorage
  unfold mountOk at hM
  by_cases hU : is_ufs_dev env.bootdevice = true
  · rw [if_pos hU] at hM ⊢
    have hrc : (do_sdcard_mount_for_ufs env).rc = 0 := of_decide_eq_true hM
    rw [if_neg (by simpa using hrc)]
    unfold ApplyFromStorageMounted
    rw [if_neg h1, if_neg h2, ufsMount_attempted_of_rc_zero env hrc, hU]
    rfl
  · rw [if_neg hU] at hM ⊢
    rw [if_neg (by simp [hM])]
    unfold ApplyFromStorageMounted
    rw [if_neg h1, if_neg h2]
    have : is_ufs_dev env.bootdevice = false := by
      cases hv : is_ufs_dev env.bootdevice with
      | false => rfl
      | true => exact absurd hv hU
    rw [this]
    rfl

/-- Claim C1: if, at some poll iteration `k` before the ready-signal path has
ever appeared, the non-blocking `waitpid` reports the fuse-host child gone
(returns -1), then `ApplyFromStorage` stops polling at that iteration,
returns `INSTALL_ERROR`, sends no forced kill, and performs neither the
exit-signal stat nor the blocking wait. -/
theorem apply_childExit_error_noKill_noWait (env : Env) (k : Nat)
    (hM : mountOk env = true) (h1 : browsedPath env ≠ "@") (h2 : browsedPath env ≠ "")
    (hk : k < SDCARD_INSTALL_TIMEOUT)
    (hcont : ∀ j, j < k → env.waitpidNohang j ≠ -1 ∧ env.statHostOk j = false ∧
      env.statErrnoENOENT j = true)
    (hdead : env.waitpidNohang k = -1) :
    (ApplyFromStorage env).result = Install.INSTALL_ERROR ∧
    (ApplyFromStorage env).killed = false ∧
    (ApplyFromStorage env).blockingWaitCalls = 0 ∧
    (ApplyFromStorage env).exitSignaled = false ∧
    (ApplyFromStorage env).waitpidCalls = k + 1 ∧
    (ApplyFromStorage env).statHostCalls = k ∧
    (ApplyFromStorage env).installCalls = [] := by
  have hp := pollLoop_waitBreak env k 0 SDCARD_INSTALL_TIMEOUT hk (by simpa using hk)
    (by intro j hj; simpa using hcont j hj) (by simpa using hdead)
  rw [ApplyFromStorage_poll env hM h1 h2]
  simp [hp]

/-- Concrete run of `apply_childExit_error_noKill_noWait`: the first poll
iteration's `waitpid` reports -1. -/
theorem apply_childExit_error_noKill_noWait_witness :
    (mountOk envChildDead = true ∧ browsedPath envChildDead ≠ "@" ∧
     browsedPath envChildDead ≠ "" ∧ envChildDead.waitpidNohang 0 = -1) ∧
    ((ApplyFromStorage envChildDead).result = Install.INSTALL_ERROR ∧
     (ApplyFromStorage envChildDead).killed = false ∧
     (ApplyFromStorage envChildDead).blockingWaitCalls = 0 ∧
     (ApplyFromStorage envChildDead).exitSignaled = false ∧
     (ApplyFromStorage envChildDead).waitpidCalls = 0 + 1 ∧
     (ApplyFromStorage envChildDead).statHostCalls = 0 ∧
     (ApplyFromStorage envChildDead).installCalls = []) :=
  ⟨⟨by decide, by decide, by decide, by decide⟩,
   apply_childExit_error_noKill_noWait envChildDead 0 (by decide) (by decide) (by decide)
     (by decide) (fun j hj => absurd hj (by omega)) (by decide)⟩

/-- Claim C5: if every one of the ten poll iterations finds the child alive
and the host path missing (ENOENT), the loop exhausts its bound, the child
is sent SIGKILL, and `ApplyFromStorage` returns `INSTALL_ERROR` (having made
exactly ten waitpid and ten stat calls and no install call). -/
theorem apply_timeout_error_and_kill (env : Env)
    (hM : mountOk env = true) (h1 : browsedPath env ≠ "@") (h2 : browsedPath env ≠ "")
    (hall : ∀ i, i < SDCARD_INSTALL_TIMEOUT → env.waitpidNohang i ≠ -1 ∧
      env.statHostOk i = false ∧ env.statErrnoENOENT i = true) :
    (ApplyFromStorage env).result = Install.INSTALL_ERROR ∧
    (ApplyFromStorage env).killed = true ∧
    (ApplyFromStorage env).waitpidCalls = SDCARD_INSTALL_TIMEOUT ∧
    (ApplyFromStorage env).statHostCalls = SDCARD_INSTALL_TIMEOUT ∧
    (ApplyFromStorage env).installCalls = [] := by
  have hp := pollLoop_timeout env SDCARD_INSTALL_TIMEOUT 0 (by simp) (by decide)
    (by intro j hj; simpa using hall j hj)
  rw [ApplyFromStorage_poll env hM h1 h2]
  simp [hp]

/-- Concrete run of `apply_timeout_error_and_kill`: the host path never
appears. -/
theorem apply_timeout_error_and_kill_witness :
    (mountOk envTimeout = true ∧ browsedPath envTimeout ≠ "@" ∧
     browsedPath envTimeout ≠ "" ∧
     (∀ i, i < SDCARD_INSTALL_TIMEOUT → envTimeout.waitpidNohang i ≠ -1 ∧
       envTimeout.statHostOk i = false ∧ envTimeout.statErrnoENOENT i = true)) ∧
    ((ApplyFromStorage envTimeout).result = Install.INSTALL_ERROR ∧
     (ApplyFromStorage envTimeout).killed = true ∧
     (ApplyFromStorage envTimeout).waitpidCalls = SDCARD_INSTALL_TIMEOUT ∧
     (ApplyFromStorage envTimeout).statHostCalls = SDCARD_INSTALL_TIMEOUT ∧
     (ApplyFromStorage envTimeout).installCalls = []) :=
  ⟨⟨by decide, by decide, by decide, by decide⟩,
   apply_timeout_error_and_kill envTimeout (by decide) (by decide) (by decide) (by decide)⟩

/-- Claim C8: when the host path first stats successfully at iteration `k`
(child alive throughout) and the first installer outcome is neither
`INSTALL_UNVERIFIED` nor `INSTALL_DOWNGRADE`, the installer runs exactly
once in the whole `ApplyFromStorage` call — independent of `k` — with the
host pathname, retry_count 0, verification on, and downgrade disallowed,
and that outcome is returned. -/
theorem ready_single_install_invocation (env : Env) (k : Nat)
    (hM : mountOk env = true) (h1 : browsedPath env ≠ "@") (h2 : browsedPath env ≠ "")
    (hk : k < SDCARD_INSTALL_TIMEOUT)
    (hcont : ∀ j, j < k → env.waitpidNohang j ≠ -1 ∧ env.statHostOk j = false ∧
      env.statErrnoENOENT j = true)
    (hwp : env.waitpidNohang k ≠ -1) (hstat : env.statHostOk k = true)
    (hout : env.install 0 ≠ Install.INSTALL_UNVERIFIED ∧
      env.install 0 ≠ Install.INSTALL_DOWNGRADE) :
    (ApplyFromStorage env).installCalls =
      [InstallArgs.mk FUSE_SIDELOAD_HOST_PATHNAME false true 0 true false] ∧
    (ApplyFromStorage env).result = env.install 0 := by
  have hA : installAttempt env =
      (env.install 0, [InstallArgs.mk FUSE_SIDELOAD_HOST_PATHNAME false true 0 true false]) := by
    unfold installAttempt
    dsimp only
    have hc1 : ¬(env.install 0 = Install.INSTALL_UNVERIFIED ∧ env.askUnverified = true) :=
      fun hand => hout.1 hand.1
    rw [if_neg hc1]
    dsimp only
    have hc2 : ¬(env.install 0 = Install.INSTALL_DOWNGRADE ∧ env.askDowngrade = true) :=
      fun hand => hout.2 hand.1
    rw [if_neg hc2]
  have hp := pollLoop_readyBreak env k 0 SDCARD_INSTALL_TIMEOUT hk (by simpa using hk)
    (by intro j hj; simpa using hcont j hj) (by simpa using hwp) (by simpa using hstat)
  rw [ApplyFromStorage_poll env hM h1 h2]
  rw [hp, hA]
  exact ⟨rfl, rfl⟩

/-- Concrete run of `ready_single_install_invocation`: ready at the first
iteration, installer succeeds. -/
theorem ready_single_install_invocation_witness :
    (mountOk envReady = true ∧ browsedPath envReady ≠ "@" ∧ browsedPath envReady ≠ "" ∧
     envReady.statHostOk 0 = true ∧ envReady.install 0 ≠ Install.INSTALL_UNVERIFIED) ∧
    ((ApplyFromStorage envReady).installCalls =
      [InstallArgs.mk FUSE_SIDELOAD_HOST_PATHNAME false true 0 true false] ∧
     (ApplyFromStorage envReady).result = envReady.install 0) :=
  ⟨⟨by decide, by decide, by decide, by decide, by decide⟩,
   ready_single_install_invocation envReady 0 (by decide) (by decide) (by decide) (by decide)
     (fun j hj => absurd hj (by omega)) (by decide) (by decide) ⟨by decide, by decide⟩⟩

/-- Claim C7: on a UFS boot device, when the fstab /sdcard volume exists but
its filesystem type is not exactly "vfat", `ApplyFromStorage` returns
`INSTALL_ERROR` without attempting the raw block-device mount and without
forking any child. -/
theorem ufs_fstype_mismatch_error_no_mount_no_fork (env : Env) (v : Volume)
    (hU : is_ufs_dev env.bootdevice = true) (hv : env.sdcardVolume = some v)
    (hft : v.fs_type ≠ "vfat") :
    (ApplyFromStorage env).result = Install.INSTALL_ERROR ∧
    (ApplyFromStorage env).rawMountAttempted = false ∧
    (ApplyFromStorage env).forkCalled = false ∧
    (ApplyFromStorage env).unmountCalls = 0 := by
  have hm : do_sdcard_mount_for_ufs env = UfsMountOut.mk (-1) false := by
    unfold do_sdcard_mount_for_ufs
    rw [hv]
    simp [hft]
  simp [ApplyFromStorage, hU, hm]

/-- Concrete run of `ufs_fstype_mismatch_error_no_mount_no_fork`: a UFS boot
device with an ext4 sdcard. -/
theorem ufs_fstype_mismatch_error_no_mount_no_fork_witness :
    (is_ufs_dev envUfsExt4.bootdevice = true ∧
     envUfsExt4.sdcardVolume = some (Volume.mk "/sdcard" "ext4" 0 "") ∧
     (Volume.mk "/sdcard" "ext4" 0 "").fs_type ≠ "vfat") ∧
    ((ApplyFromStorage envUfsExt4).result = Install.INSTALL_ERROR ∧
     (ApplyFromStorage envUfsExt4).rawMountAttempted = false ∧
     (ApplyFromStorage envUfsExt4).forkCalled = false ∧
     (ApplyFromStorage envUfsExt4).unmountCalls = 0) :=
  ⟨⟨by decide, rfl, by decide⟩,
   ufs_fstype_mismatch_error_no_mount_no_fork envUfsExt4 (Volume.mk "/sdcard" "ext4" 0 "")
     (by decide) rfl (by decide)⟩

/-- Claim C4 counterexample: when the volume-manager mount fails, the run
performs zero unmount calls yet its browse step never returned the "go home"
sentinel (the result is `INSTALL_ERROR`, not the go-home `INSTALL_NONE`), so
"unmount exactly once except on go-home" is false as stated. -/
theorem unmount_skipped_on_mount_failure_example :
    (ApplyFromStorage envMountFail).unmountCalls = 0 ∧
    (ApplyFromStorage envMountFail).result = Install.INSTALL_ERROR ∧
    browsedPath envMountFail ≠ "@" := by decide

/-- Claim C4 (amended): `volumeUnmount` is invoked exactly once per
`ApplyFromStorage` run, except that it is invoked zero times when the mount
step fails or when the browse result is the "go home" sentinel. -/
theorem unmount_count_characterization (env : Env) :
    (ApplyFromStorage env).unmountCalls =
      if mountOk env = true then (if browsedPath env = "@" then 0 else 1) else 0 := by
  by_cases hU : is_ufs_dev env.bootdevice = true
  · by_cases hrc : (do_sdcard_mount_for_ufs env).rc = 0
    · by_cases hp : browsedPath env = "@"
      · simp [ApplyFromStorage, ApplyFromStorageMounted, mountOk, hU, hrc, hp]
      · by_cases he : browsedPath env = ""
        · simp [ApplyFromStorage, ApplyFromStorageMounted, mountOk, hU, hrc, hp, he]
        · simp [ApplyFromStorage, ApplyFromStorageMounted, mountOk, hU, hrc, hp, he]
    · simp [ApplyFromStorage, mountOk, hU, hrc]
  · have hUf : is_ufs_dev env.bootdevice = false := by
      cases hb : is_ufs_dev env.bootdevice with
      | false => rfl
      | true => exact absurd hb hU
    by_cases hm : env.volumeMountOk = true
    · by_cases hp : browsedPath env = "@"
      · simp [ApplyFromStorage, ApplyFromStorageMounted, mountOk, hUf, hm, hp]
      · by_cases he : browsedPath env = ""
        · simp [ApplyFromStorage, ApplyFromStorageMounted, mountOk, hUf, hm, hp, he]
        · simp [ApplyFromStorage, ApplyFromStorageMounted, mountOk, hUf, hm, hp, he]
    · have hmf : env.volumeMountOk = false := by
        cases hb : env.volumeMountOk with
        | false => rfl
        | true => exact absurd hb hm
      simp [ApplyFromStorage, mountOk, hUf, hmf]

/-- Claim C9 counterexample: with `fork()` failing (returning -1, which the
code never checks), the run still enters the readiness polling loop — its
first non-blocking `waitpid` executes — before erroring out; the claim's
"no readiness polling performed" is false. -/
theorem fork_failure_polling_still_runs_example :
    (ApplyFromStorage envForkFail).forkReturnedNeg = true ∧
    (ApplyFromStorage envForkFail).waitpidCalls = 1 ∧
    (ApplyFromStorage envForkFail).result = Install.INSTALL_ERROR ∧
    (ApplyFromStorage envForkFail).unmountCalls = 1 ∧
    (ApplyFromStorage envForkFail).installCalls = [] := by decide

/-- Claim C9 (amended): a fork failure is not detected as such; the polling
loop runs anyway, and when its first non-blocking `waitpid` fails (returns
-1, e.g. ECHILD since no child exists), `ApplyFromStorage` stops after that
single poll step, unmounts exactly once, and returns `INSTALL_ERROR` with no
installer invocation, no kill, and no blocking wait. -/
theorem fork_failure_error_unmount_no_install (env : Env)
    (hM : mountOk env = true) (h1 : browsedPath env ≠ "@") (h2 : browsedPath env ≠ "")
    (hfork : env.forkOk = false) (hwp : env.waitpidNohang 0 = -1) :
    (ApplyFromStorage env).result = Install.INSTALL_ERROR ∧
    (ApplyFromStorage env).unmountCalls = 1 ∧
    (ApplyFromStorage env).installCalls = [] ∧
    (ApplyFromStorage env).waitpidCalls = 1 ∧
    (ApplyFromStorage env).killed = false ∧
    (ApplyFromStorage env).blockingWaitCalls = 0 ∧
    (ApplyFromStorage env).forkReturnedNeg = true := by
  have hp := pollLoop_waitBreak env 0 0 SDCARD_INSTALL_TIMEOUT (by decide) (by decide)
    (fun j hj => absurd hj (by omega)) (by simpa using hwp)
  rw [ApplyFromStorage_poll env hM h1 h2]
  simp [hp, hfork]

/-- Concrete run of `fork_failure_error_unmount_no_install`. -/
theorem fork_failure_error_unmount_no_install_witness :
    (mountOk envForkFail = true ∧ browsedPath envForkFail ≠ "@" ∧
     browsedPath envForkFail ≠ "" ∧ envForkFail.forkOk = false ∧
     envForkFail.waitpidNohang 0 = -1) ∧
    ((ApplyFromStorage envForkFail).result = Install.INSTALL_ERROR ∧
     (ApplyFromStorage envForkFail).unmountCalls = 1 ∧
     (ApplyFromStorage envForkFail).installCalls = [] ∧
     (ApplyFromStorage envForkFail).waitpidCalls = 1 ∧
     (ApplyFromStorage envForkFail).killed = false ∧
     (ApplyFromStorage envForkFail).blockingWaitCalls = 0 ∧
     (ApplyFromStorage envForkFail).forkReturnedNeg = true) :=
  ⟨⟨by decide, by decide, by decide, by decide, by decide⟩,
   fork_failure_error_unmount_no_install envForkFail (by decide) (by decide) (by decide)
     (by decide) (by decide)⟩

/-- Claim C6 counterexample: first outcome `INSTALL_UNVERIFIED`, unverified
confirmation approves — yet the second invocation's outcome
(`INSTALL_DOWNGRADE`) is *not* accepted as final: the separate downgrade
branch fires, a third invocation runs, and its outcome is returned. So "the
installer is invoked exactly a second time ... and that second outcome is
accepted" is false as stated. -/
theorem second_outcome_not_final_example :
    envUnvDowngrade.install 0 = Install.INSTALL_UNVERIFIED ∧
    envUnvDowngrade.askUnverified = true ∧
    envUnvDowngrade.install 1 = Install.INSTALL_DOWNGRADE ∧
    (ApplyFromStorage envUnvDowngrade).installCalls.length = 3 ∧
    (ApplyFromStorage envUnvDowngrade).result = Install.INSTALL_SUCCESS := by decide

/-- Claim C6 (amended): when the first installer invocation returns
`INSTALL_UNVERIFIED` — if the unverified confirmation declines, that first
outcome is final with no further invocation; if it approves, a second
invocation runs with verification disabled and the same path, and its
outcome is accepted *unless* it is `INSTALL_DOWNGRADE` and the downgrade
confirmation approves, in which case a third invocation (verification
disabled, downgrade allowed) runs and that third outcome is accepted. -/
theorem unverified_retry_characterization (env : Env) (k : Nat)
    (hM : mountOk env = true) (h1 : browsedPath env ≠ "@") (h2 : browsedPath env ≠ "")
    (hk : k < SDCARD_INSTALL_TIMEOUT)
    (hcont : ∀ j, j < k → env.waitpidNohang j ≠ -1 ∧ env.statHostOk j = false ∧
      env.statErrnoENOENT j = true)
    (hwp : env.waitpidNohang k ≠ -1) (hstat : env.statHostOk k = true)
    (h0 : env.install 0 = Install.INSTALL_UNVERIFIED) :
    (env.askUnverified = false →
      (ApplyFromStorage env).installCalls =
        [InstallArgs.mk FUSE_SIDELOAD_HOST_PATHNAME false true 0 true false] ∧
      (ApplyFromStorage env).result = Install.INSTALL_UNVERIFIED) ∧
    (env.askUnverified = true →
      ((env.install 1 = Install.INSTALL_DOWNGRADE ∧ env.askDowngrade = true) →
        (ApplyFromStorage env).installCalls =
          [InstallArgs.mk FUSE_SIDELOAD_HOST_PATHNAME false true 0 true false,
           InstallArgs.mk FUSE_SIDELOAD_HOST_PATHNAME false false 0 false false,
           InstallArgs.mk FUSE_SIDELOAD_HOST_PATHNAME false false 0 false true] ∧
        (ApplyFromStorage env).result = env.install 2) ∧
      (¬(env.install 1 = Install.INSTALL_DOWNGRADE ∧ env.askDowngrade = true) →
        (ApplyFromStorage env).installCalls =
          [InstallArgs.mk FUSE_SIDELOAD_HOST_PATHNAME false true 0 true false,
           InstallArgs.mk FUSE_SIDELOAD_HOST_PATHNAME false false 0 false false] ∧
        (ApplyFromStorage env).result = env.install 1)) := by
  have hp := pollLoop_readyBreak env k 0 SDCARD_INSTALL_TIMEOUT hk (by simpa using hk)
    (by intro j hj; simpa using hcont j hj) (by simpa using hwp) (by simpa using hstat)
  have hbr := ApplyFromStorage_poll env hM h1 h2
  refine ⟨?_, ?_⟩
  · intro hau
    have hA : installAttempt env =
        (Install.INSTALL_UNVERIFIED,
         [InstallArgs.mk FUSE_SIDELOAD_HOST_PATHNAME false true 0 true false]) := by
      simp [installAttempt, h0, hau]
    rw [hbr, hp, hA]
    exact ⟨rfl, rfl⟩
  · intro hau
    refine ⟨?_, ?_⟩
    · rintro ⟨hd, had⟩
      have hA : installAttempt env =
          (env.install 2,
           [InstallArgs.mk FUSE_SIDELOAD_HOST_PATHNAME false true 0 true false,
            InstallArgs.mk FUSE_SIDELOAD_HOST_PATHNAME false false 0 false false,
            InstallArgs.mk FUSE_SIDELOAD_HOST_PATHNAME false false 0 false true]) := by
        simp [installAttempt, h0, hau, hd, had]
      rw [hbr, hp, hA]
      exact ⟨rfl, rfl⟩
    · intro hnd
      have hA : installAttempt env =
          (env.install 1,
           [InstallArgs.mk FUSE_SIDELOAD_HOST_PATHNAME false true 0 true false,
            InstallArgs.mk FUSE_SIDELOAD_HOST_PATHNAME false false 0 false false]) := by
        simp [installAttempt, h0, hau, hnd]
      rw [hbr, hp, hA]
      exact ⟨rfl, rfl⟩

/-- Concrete run of `unverified_retry_characterization` on
`envUnvDowngrade` (approving both prompts, with outcomes UNVERIFIED then
DOWNGRADE then SUCCESS). -/
theorem unverified_retry_characterization_witness :
    (mountOk envUnvDowngrade = true ∧
     envUnvDowngrade.install 0 = Install.INSTALL_UNVERIFIED ∧
     envUnvDowngrade.statHostOk 0 = true) ∧
    ((envUnvDowngrade.askUnverified = false →
      (ApplyFromStorage envUnvDowngrade).installCalls =
        [InstallArgs.mk FUSE_SIDELOAD_HOST_PATHNAME false true 0 true false] ∧
      (ApplyFromStorage envUnvDowngrade).result = Install.INSTALL_UNVERIFIED) ∧
    (envUnvDowngrade.askUnverified = true →
      ((envUnvDowngrade.install 1 = Install.INSTALL_DOWNGRADE ∧
          envUnvDowngrade.askDowngrade = true) →
        (ApplyFromStorage envUnvDowngrade).installCalls =
          [InstallArgs.mk FUSE_SIDELOAD_HOST_PATHNAME false true 0 true false,
           InstallArgs.mk FUSE_SIDELOAD_HOST_PATHNAME false false 0 false false,
           InstallArgs.mk FUSE_SIDELOAD_HOST_PATHNAME false false 0 false true] ∧
        (ApplyFromStorage envUnvDowngrade).result = envUnvDowngrade.install 2) ∧
      (¬(envUnvDowngrade.install 1 = Install.INSTALL_DOWNGRADE ∧
          envUnvDowngrade.askDowngrade = true) →
        (ApplyFromStorage envUnvDowngrade).installCalls =
          [InstallArgs.mk FUSE_SIDELOAD_HOST_PATHNAME false true 0 true false,
           InstallArgs.mk FUSE_SIDELOAD_HOST_PATHNAME false false 0 false false] ∧
        (ApplyFromStorage envUnvDowngrade).result = envUnvDowngrade.install 1))) :=
  ⟨⟨by decide, by decide, by decide⟩,
   unverified_retry_characterization envUnvDowngrade 0 (by decide) (by decide) (by decide)
     (by decide) (fun j hj => absurd hj (by omega)) (by decide) (by decide) (by decide)⟩

/-- Claim C3 counterexample: with a package file named "-test.zip" (and `-`
sorting before `.` in byte order), the synthetic "go up" entry — which the
code seeds into the *same* vector as the package files before sorting — is
not in first position. -/
theorem menu_goUp_not_first_example :
    menuOf [("-test.zip", FS.reg)] = ["-test.zip", "../"] ∧
    (menuOf [("-test.zip", FS.reg)]).head? ≠ some "../" := by decide

/-- Claim C3 (amended): the menu consists of the synthetic "../" entry
sorted *together with* the package files (byte-lexicographically), followed
by the subdirectories (with "/" appended) sorted byte-lexicographically;
package files always precede subdirectories, each block is sorted, and
(directory entry names never containing a slash) "../" occurs exactly once
— but it heads the list only when no package file sorts before "../". -/
theorem menuOf_blocks_sorted (es : List (String × FS))
    (h : ∀ e ∈ es, ('/' : Char) ∉ e.1.data) :
    menuOf es = sortStr ("../" :: zipNames es) ++ sortStr (dirNames es) ∧
    isSortedLe (sortStr ("../" :: zipNames es)) = true ∧
    isSortedLe (sortStr (dirNames es)) = true ∧
    (menuOf es).count "../" = 1 :=
  ⟨menuOf_eq es, sortStr_sorted _, sortStr_sorted _, count_goUp_menuOf h⟩

/-- Concrete run of `menuOf_blocks_sorted` on a listing with two package
files, a subdirectory, a non-package file and the skipped "." entry. -/
theorem menuOf_blocks_sorted_witness :
    menuOf demoEntries = sortStr ("../" :: zipNames demoEntries) ++ sortStr (dirNames demoEntries) ∧
    isSortedLe (sortStr ("../" :: zipNames demoEntries)) = true ∧
    isSortedLe (sortStr (dirNames demoEntries)) = true ∧
    (menuOf demoEntries).count "../" = 1 :=
  menuOf_blocks_sorted demoEntries (by decide)

/-- Claim C2 counterexample: in `zipTree` the user descends into "sub/",
the menu read there is interrupted — yet the enclosing level presents its
menu again (the third scripted response is consumed) and the top-level
result is the selection "/sdcard/a.zip", not a cancelled browse. -/
theorem browse_interrupt_nonpropagation_example :
    BrowseDirectory 4 "/sdcard" zipTree
      [MenuResp.choose 2, MenuResp.interrupted, MenuResp.choose 1] = ("/sdcard/a.zip", []) ∧
    ("/sdcard/a.zip" : String) ≠ "" ∧ ("/sdcard/a.zip" : String) ≠ "@" := by decide

/-- Claim C2 (amended): an interrupted menu read cancels only the *current*
`BrowseDirectory` level, which returns the empty (cancelled) result
immediately without further reads; an enclosing level that had descended
into a subdirectory treats that empty result like any other cancelled
child and loops, presenting its own menu again — so the interrupt does not
propagate by itself. -/
theorem browse_interrupt_cancels_current_level_only (fuel : Nat) (path : String)
    (es es2 : List (String × FS)) (rest : List MenuResp) (i : Nat) (item : String)
    (hi : i ≠ 0) (hm : (menuOf es)[i]? = some item)
    (hs : lastIsSlash (path ++ "/" ++ item) = true)
    (hl : lookupDir (popBack item) es = some es2) :
    BrowseDirectory (fuel + 1) path (FS.dir es) (MenuResp.interrupted :: rest) = ("", rest) ∧
    BrowseDirectory (fuel + 2) path (FS.dir es)
        (MenuResp.choose i :: MenuResp.interrupted :: rest) =
      BrowseDirectory (fuel + 1) path (FS.dir es) rest := by
  refine ⟨rfl, ?_⟩
  simp only [BrowseDirectory]
  rw [if_neg hi, hm]
  dsimp only
  rw [if_pos hs, hl]
  dsimp only
  rw [if_neg (by simp)]

/-- Concrete run of `browse_interrupt_cancels_current_level_only` at the
root of `zipEntries`, choosing the "sub/" entry. -/
theorem browse_interrupt_cancels_current_level_only_witness :
    (2 ≠ 0 ∧ (menuOf zipEntries)[2]? = some "sub/" ∧
     lastIsSlash ("/sdcard" ++ "/" ++ "sub/") = true ∧
     lookupDir (popBack "sub/") zipEntries = some [("b.zip", FS.reg)]) ∧
    (BrowseDirectory 2 "/sdcard" (FS.dir zipEntries)
        (MenuResp.interrupted :: [MenuResp.choose 1]) = ("", [MenuResp.choose 1]) ∧
     BrowseDirectory 3 "/sdcard" (FS.dir zipEntries)
        (MenuResp.choose 2 :: MenuResp.interrupted :: [MenuResp.choose 1]) =
      BrowseDirectory 2 "/sdcard" (FS.dir zipEntries) [MenuResp.choose 1]) :=
  ⟨⟨by decide, by decide, by decide, rfl⟩,
   browse_interrupt_cancels_current_level_only 1 "/sdcard" zipEntries [("b.zip", FS.reg)]
     [MenuResp.choose 1] 2 "sub/" (by decide) (by decide) (by decide) rfl⟩

theorem browse_shape_aux :
    ∀ (fuel : Nat) (path : String) (fs : FS) (inputs : List MenuResp),
      (BrowseDirectory fuel path fs inputs).1 ≠ "" →
      (BrowseDirectory fuel path fs inputs).1 ≠ "@" →
      strStartsWith (BrowseDirectory fuel path fs inputs).1 path = true ∧
      endsWithIgnoreCase (BrowseDirectory fuel path fs inputs).1 ".zip" = true := by
  intro fuel
  induction fuel with
  | zero =>
    intro path fs inputs h1 _
    simp [BrowseDirectory] at h1
  | succ f ih =>
    intro path fs inputs h1 h2
    cases fs with
    | reg => simp [BrowseDirectory] at h1
    | other => simp [BrowseDirectory] at h1
    | dir es =>
      cases inputs with
      | nil => simp [BrowseDirectory] at h1
      | cons resp rest =>
        cases resp with
        | interrupted => simp [BrowseDirectory] at h1
        | goHome => simp [BrowseDirectory] at h2
        | goBack => simp [BrowseDirectory] at h1
        | choose i =>
          by_cases hi : i = 0
          · simp [BrowseDirectory, hi] at h1
          · cases hmi : (menuOf es)[i]? with
            | none =>
              have heq : BrowseDirectory (f + 1) path (FS.dir es)
                  (MenuResp.choose i :: rest) = ("", rest) := by
                simp only [BrowseDirectory]
                rw [if_neg hi, hmi]
              rw [heq] at h1
              simp at h1
            | some item =>
              by_cases hsl : lastIsSlash (path ++ "/" ++ item) = true
              · cases hld : lookupDir (popBack item) es with
                | none =>
                  have heq : BrowseDirectory (f + 1) path (FS.dir es)
                      (MenuResp.choose i :: rest) =
                      BrowseDirectory f path (FS.dir es) rest := by
                    simp only [BrowseDirectory]
                    rw [if_neg hi, hmi]
                    dsimp only
                    rw [if_pos hsl, hld]
                    dsimp only
                    rw [if_neg (by simp)]
                  rw [heq] at h1 h2 ⊢
                  exact ih path (FS.dir es) rest h1 h2
                | some es2 =>
                  by_cases hne :
                      (BrowseDirectory f (path ++ "/" ++ popBack item) (FS.dir es2) rest).1 ≠ ""
                  · have heq : BrowseDirectory (f + 1) path (FS.dir es)
                        (MenuResp.choose i :: rest) =
                        BrowseDirectory f (path ++ "/" ++ popBack item) (FS.dir es2) rest := by
                      simp only [BrowseDirectory]
                      rw [if_neg hi, hmi]
                      dsimp only
                      rw [if_pos hsl, hld]
                      dsimp only
                      rw [if_pos hne]
                    rw [heq] at h1 h2 ⊢
                    have hrec := ih (path ++ "/" ++ popBack item) (FS.dir es2) rest h1 h2
                    refine ⟨?_, hrec.2⟩
                    exact strStartsWith_of_append path "/"
                      (strStartsWith_of_append (path ++ "/") (popBack item) hrec.1)
                  · have heq : BrowseDirectory (f + 1) path (FS.dir es)
                        (MenuResp.choose i :: rest) =
                        BrowseDirectory f path (FS.dir es)
                          (BrowseDirectory f (path ++ "/" ++ popBack item) (FS.dir es2) rest).2 := by
                      simp only [BrowseDirectory]
                      rw [if_neg hi, hmi]
                      dsimp only
                      rw [if_pos hsl, hld]
                      dsimp only
                      rw [if_neg hne]
                    rw [heq] at h1 h2 ⊢
                    exact ih path (FS.dir es) _ h1 h2
              · have heq : BrowseDirectory (f + 1) path (FS.dir es)
                    (MenuResp.choose i :: rest) = (path ++ "/" ++ item, rest) := by
                  simp only [BrowseDirectory]
                  rw [if_neg hi, hmi]
                  dsimp only
                  rw [if_neg hsl]
                rw [heq] at h1 h2 ⊢
                have hitem : item ∈ menuOf es := List.getElem?_mem hmi
                rcases mem_menuOf_shape hitem with hup | hzip | ⟨n, hn⟩
                · exfalso
                  apply hsl
                  rw [hup, show ("../" : String) = ".." ++ "/" by decide]
                  exact lastIsSlash_append_slash (path ++ "/") ".."
                · refine ⟨?_, endsWithIgnoreCase_append_left (path ++ "/") item ".zip" hzip⟩
                  rw [strAppend_assoc]
                  exact strStartsWith_append path ("/" ++ item)
                · exfalso
                  apply hsl
                  rw [hn]
                  exact lastIsSlash_append_slash (path ++ "/") n

/-- Claim C10: every non-empty, non-sentinel result of `BrowseDirectory`
starts with the root path it was invoked on and ends, ASCII-case-
insensitively, in ".zip"; and the "@" go-home sentinel itself never carries
that suffix, so the orchestrator's sentinel test cannot misclassify a
genuine selection. -/
theorem browse_selection_prefix_and_zip (fuel : Nat) (path : String) (fs : FS)
    (inputs : List MenuResp)
    (h1 : (BrowseDirectory fuel path fs inputs).1 ≠ "")
    (h2 : (BrowseDirectory fuel path fs inputs).1 ≠ "@") :
    strStartsWith (BrowseDirectory fuel path fs inputs).1 path = true ∧
    endsWithIgnoreCase (BrowseDirectory fuel path fs inputs).1 ".zip" = true ∧
    endsWithIgnoreCase "@" ".zip" = false :=
  ⟨(browse_shape_aux fuel path fs inputs h1 h2).1,
   (browse_shape_aux fuel path fs inputs h1 h2).2, by decide⟩

/-- Concrete run of `browse_selection_prefix_and_zip`: selecting "a.zip"
under "/sdcard". -/
theorem browse_selection_prefix_and_zip_witness :
    ((BrowseDirectory 2 "/sdcard" zipTree [MenuResp.choose 1]).1 ≠ "" ∧
     (BrowseDirectory 2 "/sdcard" zipTree [MenuResp.choose 1]).1 ≠ "@") ∧
    (strStartsWith (BrowseDirectory 2 "/sdcard" zipTree [MenuResp.choose 1]).1 "/sdcard" = true ∧
     endsWithIgnoreCase (BrowseDirectory 2 "/sdcard" zipTree [MenuResp.choose 1]).1 ".zip" = true ∧
     endsWithIgnoreCase "@" ".zip" = false) :=
  ⟨⟨by decide, by decide⟩,
   browse_selection_prefix_and_zip 2 "/sdcard" zipTree [MenuResp.choose 1] (by decide) (by decide)⟩

end FuseSdcard
